import Mathlib

/-!
Verification development for the hydrological frequency-analysis core of the
NCKH repository.  The statistical pipeline (frequency curves, data-adequacy
gating, distribution fitting and ranking, return-period quantiles) is embedded
shallowly: rational arithmetic stands in for the numeric computations of the
empirical/plotting layer, and real analysis is used for the continuous
distribution identities.
-/

namespace NCKH

/-! ## Empirical frequency curve (Weibull plotting positions)

The repository documents the empirical exceedance-probability formula as
`rank/(n+1)*100` (Weibull plotting position); ranks are assigned after sorting
the aggregated values descending for max-type aggregation (rank 1 = largest).
-/

/-- Weibull plotting-position exceedance probability, in percent, for the value
of rank `rank` in a series of `n` aggregated values: `rank/(n+1)*100`. -/
def weibullP (n rank : ℕ) : ℚ := (rank : ℚ) / ((n : ℚ) + 1) * 100

/-- The ordered list of empirical exceedance probabilities for a series of `n`
aggregated values: ranks `1..n` mapped through `weibullP`. -/
def empiricalPs (n : ℕ) : List ℚ :=
  (List.range n).map (fun i => weibullP n (i + 1))

/-- Insert a value into a descending-sorted list, keeping it descending. -/
def insertDesc (x : ℚ) : List ℚ → List ℚ
  | [] => [x]
  | y :: ys => if y < x then x :: y :: ys else y :: insertDesc x ys

/-- Sort a list of aggregated values descending (max-type aggregation:
rank 1 is the most extreme, i.e. largest, value). -/
def sortDesc : List ℚ → List ℚ
  | [] => []
  | x :: xs => insertDesc x (sortDesc xs)

/-- Empirical frequency points `(P_percent, quantileValue)` of an aggregated
series: the descending-sorted values paired with their Weibull plotting
positions in rank order. -/
def empiricalPoints (values : List ℚ) : List (ℚ × ℚ) :=
  (empiricalPs values.length).zip (sortDesc values)

/-- Round a rational to two decimal places (the display convention used by the
repository's reports for percentages). -/
def round2 (q : ℚ) : ℚ := (round (q * 100) : ℤ) / 100

/-! ## Data-adequacy gating and quality assessment -/

/-- Structured analysis error: insufficient data carries the required and the
available period counts (the backend raises an HTTP 400 whose detail names
both counts). -/
inductive AnalysisError where
  | insufficientData (required available : ℕ)
deriving DecidableEq

/-- Quality grade of an aggregated series, by sample count. -/
inductive Grade where
  | poor | fair | good | excellent
deriving DecidableEq

/-- Uncertainty level attached to a quality grade. -/
inductive Uncertainty where
  | very_high | high | moderate | low
deriving DecidableEq

/-- Quality assessment of an aggregated series. -/
structure QualityAssessment where
  n : ℕ
  grade : Grade
  uncertainty : Uncertainty
  warnings : List String
deriving DecidableEq

/-- `true` when every value of the series equals the first one (degenerate,
zero-variance input). -/
def allEqual (l : List ℚ) : Bool :=
  match l with
  | [] => true
  | x :: xs => xs.all (fun y => y == x)

/-- Modelled from the spec: the QualityController grading code is not under
src (only report documents describe it).  Per spec section 3, the grade and
uncertainty are a function of the aggregated sample count `n`: `n < 2` yields
no assessment (fatal), `2 ≤ n < 10` poor/very_high, `10 ≤ n < 20` fair/high,
`20 ≤ n < 30` good/moderate, `n ≥ 30` excellent/low; a degenerate
(all-values-equal) series is additionally flagged with a zero-variance
warning (spec section 8 scenario). -/
def assessQuality (series : List ℚ) : Option QualityAssessment :=
  let n := series.length
  if n < 2 then none
  else
    let warnings := if allEqual series then ["zero variance"] else []
    if n < 10 then some ⟨n, Grade.poor, Uncertainty.very_high, warnings⟩
    else if n < 20 then some ⟨n, Grade.fair, Uncertainty.high, warnings⟩
    else if n < 30 then some ⟨n, Grade.good, Uncertainty.moderate, warnings⟩
    else some ⟨n, Grade.excellent, Uncertainty.low, warnings⟩

/-! ## Distribution fitting, goodness of fit and ranking -/

/-- Per-family fit record.  `k` is the number of free parameters, `logLik`
the maximized log likelihood, `ksPValue` the Kolmogorov-Smirnov p-value. -/
structure FitResult where
  family : String
  k : ℕ
  logLik : ℚ
  ksPValue : ℚ
  fitSucceeded : Bool
  failureReason : Option String
deriving DecidableEq

/-- The distribution families maintained by the registry. -/
def distributionFamilies : List String :=
  ["gumbel", "genextreme", "lognorm", "gamma", "logistic",
   "expon", "genpareto", "pearson3", "frechet"]

/-- Modelled from the spec: the MLE fitting code (scipy calls) is not under
src.  Per spec sections 4.3 and 7, a degenerate all-equal sample is caught
before fitting and recorded as a failed fit with a degeneracy reason (never
aborting the analysis); the numeric outcome of a successful MLE fit is
abstracted (the claims settled here depend only on the success flag and the
failure reason). -/
def fitFamily (series : List ℚ) (name : String) : FitResult :=
  if allEqual series then
    { family := name, k := 2, logLik := 0, ksPValue := 0,
      fitSucceeded := false,
      failureReason := some "degenerate zero-variance input" }
  else
    { family := name, k := 2, logLik := 0, ksPValue := 0,
      fitSucceeded := true, failureReason := none }

/-- AIC of a fit: `2k - 2*logLikelihood`. -/
def evaluateAIC (f : FitResult) : ℚ := 2 * (f.k : ℚ) - 2 * f.logLik

/-- Ranking order on fits: ascending AIC, ties broken by higher KS p-value. -/
def fitOrder (a b : FitResult) : Prop :=
  evaluateAIC a < evaluateAIC b ∨
    (evaluateAIC a = evaluateAIC b ∧ b.ksPValue ≤ a.ksPValue)

instance fitOrderDec : DecidableRel fitOrder := fun a b =>
  inferInstanceAs (Decidable (evaluateAIC a < evaluateAIC b ∨
    (evaluateAIC a = evaluateAIC b ∧ b.ksPValue ≤ a.ksPValue)))

instance fitOrderTotal : IsTotal FitResult fitOrder := by
  constructor
  intro a b
  rcases lt_trichotomy (evaluateAIC a) (evaluateAIC b) with h | h | h
  · exact Or.inl (Or.inl h)
  · rcases le_total b.ksPValue a.ksPValue with hk | hk
    · exact Or.inl (Or.inr ⟨h, hk⟩)
    · exact Or.inr (Or.inr ⟨h.symm, hk⟩)
  · exact Or.inr (Or.inl h)

instance fitOrderTrans : IsTrans FitResult fitOrder := by
  constructor
  intro a b c hab hbc
  rcases hab with h1 | ⟨h1, hk1⟩ <;> rcases hbc with h2 | ⟨h2, hk2⟩
  · exact Or.inl (lt_trans h1 h2)
  · exact Or.inl (lt_of_lt_of_eq h1 h2)
  · exact Or.inl (lt_of_eq_of_lt h1 h2)
  · exact Or.inr ⟨h1.trans h2, le_trans hk2 hk1⟩

/-- Successfully fit families, sorted ascending by AIC with the KS p-value
tie break. -/
def rankFits (fits : List FitResult) : List FitResult :=
  List.insertionSort fitOrder (fits.filter (fun f => f.fitSucceeded))

/-- A ranked fit: the fit record together with its AIC and the best-fit
marker. -/
structure EvaluatedFit where
  fit : FitResult
  AIC : ℚ
  isBestFit : Bool
deriving DecidableEq

/-- Mark the head of the ranked list as the best fit. -/
def markBest : List FitResult → List EvaluatedFit
  | [] => []
  | x :: xs =>
      ⟨x, evaluateAIC x, true⟩ :: xs.map (fun f => ⟨f, evaluateAIC f, false⟩)

/-- Modelled from the spec: the GoodnessOfFitEvaluator ranking (spec section
4.4) — successfully fit families sorted ascending by AIC, ties by higher KS
p-value, the top entry marked `isBestFit`. -/
def goodnessRanking (fits : List FitResult) : List EvaluatedFit :=
  markBest (rankFits fits)

/-! ## Pipeline entry points (analysis service) -/

/-- Transcribed from the service code quoted in the repository report
(`get_frequency_analysis`): with fewer than 2 aggregated periods the request
is rejected with an insufficient-data error naming required=2 and the
available count; otherwise the empirical frequency points are produced. -/
def get_frequency_analysis (series : List ℚ) :
    Except AnalysisError (List (ℚ × ℚ)) :=
  let n := series.length
  if n < 2 then Except.error (AnalysisError.insufficientData 2 n)
  else Except.ok (empiricalPoints series)

/-- Transcribed from the service code quoted in the repository report
(`get_distribution_analysis`): with fewer than 3 aggregated periods the
request is rejected with an insufficient-data error naming required=3 and the
available count; otherwise every registered family is fitted and ranked. -/
def get_distribution_analysis (series : List ℚ) :
    Except AnalysisError (List EvaluatedFit) :=
  let n := series.length
  if n < 3 then Except.error (AnalysisError.insufficientData 3 n)
  else Except.ok (goodnessRanking (distributionFamilies.map (fitFamily series)))

/-! ## Continuous distribution layer: Gumbel cdf/ppf and return periods

Modelled from the spec: the distribution mathematics lives in scipy calls
that are not under src.  Spec section 4.3 names the Gumbel family (the
reference family of the repository's accuracy tests) with
`cdf(x) = exp(-exp(-(x-mu)/beta))` and inverse cdf
`ppf(p) = mu - beta*ln(-ln p)`; section 4.6 defines the return-period
quantile `Q(T) = ppf(1 - 1/T)` and section 4.5 the theoretical curve as the
ppf evaluated at non-exceedance probability `1 - p`. -/

/-- Gumbel cumulative distribution function with location `mu`, scale `beta`. -/
noncomputable def gumbelCdf (mu beta x : ℝ) : ℝ :=
  Real.exp (-Real.exp (-((x - mu) / beta)))

/-- Gumbel inverse cdf (percent point function). -/
noncomputable def gumbelPpf (mu beta p : ℝ) : ℝ :=
  mu - beta * Real.log (-Real.log p)

/-- Return-period quantile for a max-type series: `Q(T) = ppf(1 - 1/T)`. -/
noncomputable def returnPeriodQuantile (mu beta T : ℝ) : ℝ :=
  gumbelPpf mu beta (1 - 1 / T)

/-- Theoretical frequency-curve quantile at exceedance probability `p`. -/
noncomputable def theoreticalCurveQ (mu beta p : ℝ) : ℝ :=
  gumbelPpf mu beta (1 - p)

/-- Combined analysis result: quality assessment plus all per-family fit
records (failed fits included). -/
structure AnalysisResult where
  quality : QualityAssessment
  fits : List FitResult
deriving DecidableEq

/-- Modelled from the spec: the full pipeline (spec section 2) — the
QualityController short-circuits with `InsufficientDataError` for `n < 2`,
otherwise fitting proceeds for every family and failures are recorded, never
aborting the analysis. -/
def runAnalysis (series : List ℚ) : Except AnalysisError AnalysisResult :=
  match assessQuality series with
  | none => Except.error (AnalysisError.insufficientData 2 series.length)
  | some qa =>
      Except.ok { quality := qa,
                  fits := distributionFamilies.map (fitFamily series) }

/-- Pair of grade and uncertainty level of an assessment. -/
def gradeUncert (qa : QualityAssessment) : Grade × Uncertainty :=
  (qa.grade, qa.uncertainty)

/-! ## Frontend model-quality scoring (analysis.js) -/

/-- Outcome of the frontend quality scoring: score, label and display
color. -/
structure QualityScore where
  score : ℚ
  label : String
  color : String
deriving DecidableEq

/-- JavaScript falsiness of an optional numeric argument: absent (null or
undefined) or equal to 0. -/
def falsy (x : Option ℚ) : Bool :=
  match x with
  | none => true
  | some v => v == 0

/-- AIC component of `getQualityScore` (analysis.js lines 79-82). -/
def aicComponent (aic : ℚ) : ℚ :=
  if aic < 10 then 40 else if aic < 20 then 30 else if aic < 30 then 20 else 10

/-- p-value component of `getQualityScore` (analysis.js lines 84-87). -/
def pValueComponent (p : ℚ) : ℚ :=
  if 5/100 < p then 60 else if 1/100 < p then 40
  else if 1/1000 < p then 20 else 10

/-- Transcribed from `getQualityScore` in
src/frontend/src/component/analysis.js: a falsy AIC or p-value yields score 0
with the no-data label; otherwise the AIC and p-value components are summed
and the label follows the 80/60/40 cut points. -/
def getQualityScore (aic pValue : Option ℚ) : QualityScore :=
  if falsy aic || falsy pValue then
    ⟨0, "Không đủ dữ liệu", "secondary"⟩
  else
    let score := aicComponent (aic.getD 0) + pValueComponent (pValue.getD 0)
    if 80 ≤ score then ⟨score, "Tuyệt vời", "success"⟩
    else if 60 ≤ score then ⟨score, "Tốt", "info"⟩
    else if 40 ≤ score then ⟨score, "Trung bình", "warning"⟩
    else ⟨score, "Kém", "danger"⟩

/-! ## Frontend annual statistics view (annual.js) -/

/-- One row of the annual statistics table (only the fields the comparison
reads). -/
structure StatRow where
  year : ℤ
  min : ℚ
  max : ℚ
  mean : ℚ
deriving DecidableEq

/-- Transcribed from `allStatsAreSame` in
src/frontend/src/component/annual.js: false for a missing or empty list;
otherwise every row's min, max and mean must equal those of the first row
(the first row is compared against itself too, as in the JS `every`). -/
def allStatsAreSame (stats : Option (List StatRow)) : Bool :=
  match stats with
  | none => false
  | some [] => false
  | some (first :: rest) =>
      (first :: rest).all (fun stat =>
        stat.min == first.min && stat.max == first.max &&
          stat.mean == first.mean)

/-- The two render branches of the AnnualStatistics component. -/
inductive AnnualView where
  | warningDataUnchanged | statsTable
deriving DecidableEq

/-- Transcribed from the AnnualStatistics render (annual.js): the
data-unchanged warning replaces the statistics table exactly when
`allStatsAreSame` holds. -/
def annualStatisticsView (stats : Option (List StatRow)) : AnnualView :=
  if allStatsAreSame stats then AnnualView.warningDataUnchanged
  else AnnualView.statsTable

end NCKH

open NCKH

/-- C1: for every aggregated series of `n ≥ 1` values, the empirical frequency
points assign rank `i` the exceedance probability `P_i = i/(n+1)*100`; every
`P_i` lies strictly between 0 and 100 and `P_i` is strictly increasing in
rank. -/
theorem weibull_plotting_positions_valid (n : ℕ) (hn : 1 ≤ n) :
    empiricalPs n = (List.range n).map (fun i : ℕ => ((i : ℚ) + 1) / ((n : ℚ) + 1) * 100) ∧
    (∀ p ∈ empiricalPs n, 0 < p ∧ p < 100) ∧
    List.Pairwise (fun a b => a < b) (empiricalPs n) := by
  have hn' : (0 : ℚ) < (n : ℚ) + 1 := by positivity
  refine ⟨?_, ?_, ?_⟩
  · unfold empiricalPs weibullP
    apply List.map_congr_left
    intro i _
    push_cast
    ring
  · intro p hp
    rcases List.mem_map.mp hp with ⟨i, hi, rfl⟩
    have hilt : i < n := List.mem_range.mp hi
    have hiq : (i : ℚ) < (n : ℚ) := by exact_mod_cast hilt
    unfold weibullP
    push_cast
    constructor
    · positivity
    · have h3 : ((i : ℚ) + 1) / ((n : ℚ) + 1) < 1 := (div_lt_one hn').mpr (by linarith)
      nlinarith
  · unfold empiricalPs
    refine List.pairwise_map.mpr ?_
    refine (List.pairwise_lt_range n).imp ?_
    intro a b hab
    have haq : (a : ℚ) < (b : ℚ) := by exact_mod_cast hab
    unfold weibullP
    push_cast
    gcongr

/-- Witness for C1, instantiated at `n = 5`. -/
theorem weibull_plotting_positions_valid_witness :
    1 ≤ 5 ∧
    (empiricalPs 5 =
        (List.range 5).map (fun i : ℕ => ((i : ℚ) + 1) / (((5 : ℕ) : ℚ) + 1) * 100) ∧
      (∀ p ∈ empiricalPs 5, 0 < p ∧ p < 100) ∧
      List.Pairwise (fun a b : ℚ => a < b) (empiricalPs 5)) :=
  ⟨by decide, weibull_plotting_positions_valid 5 (by decide)⟩

/-- C8: for the 5-value input `[10,12,9,15,11]` under max aggregation the
empirical points at ranks 1..5 carry exceedance probabilities
`50/3, 100/3, 50, 200/3, 250/3` percent (displaying, at two decimals, as
`16.67, 33.33, 50, 66.67, 83.33`) paired with the descending-sorted values;
and for any 20-value aggregated series the rank-1 and rank-20 empirical
frequencies are `100/21` and `2000/21` percent. -/
theorem empirical_frequencies_concrete (values : List ℚ) (h : values.length = 20) :
    empiricalPoints [10, 12, 9, 15, 11] =
      [(50/3, 15), (100/3, 12), (50, 11), (200/3, 10), (250/3, 9)] ∧
    (empiricalPoints [10, 12, 9, 15, 11]).map (fun p => round2 p.1) =
      [1667/100, 3333/100, 50, 6667/100, 8333/100] ∧
    weibullP 20 1 = 100/21 ∧ weibullP 20 20 = 2000/21 ∧
    (empiricalPs values.length).head? = some (100/21) ∧
    (empiricalPs values.length).getLast? = some (2000/21) := by
  rw [h]
  refine ⟨?_, ?_, ?_, ?_, ?_, ?_⟩
  · norm_num [empiricalPoints, empiricalPs, sortDesc, insertDesc, weibullP, List.range_succ]
  · norm_num [empiricalPoints, empiricalPs, sortDesc, insertDesc, weibullP, round2,
      round_eq, List.range_succ]
  · norm_num [weibullP]
  · norm_num [weibullP]
  · norm_num [empiricalPs, weibullP, List.range_succ]
  · norm_num [empiricalPs, weibullP, List.range_succ]

/-- Witness for C8, instantiated at a concrete 20-value series. -/
theorem empirical_frequencies_concrete_witness :
    (List.replicate 20 (0 : ℚ)).length = 20 ∧
    ((empiricalPs (List.replicate 20 (0 : ℚ)).length).head? = some (100/21) ∧
      (empiricalPs (List.replicate 20 (0 : ℚ)).length).getLast? = some (2000/21)) :=
  ⟨by decide,
    (empirical_frequencies_concrete (List.replicate 20 0) (by decide)).2.2.2.2⟩

/-- C2 counterexample: at the boundary `n = 2` the analysis does not succeed
through distribution fitting — the service's distribution stage rejects any
series of fewer than 3 periods, so the claim's `n = 2` success (including
fitting) fails. -/
theorem distribution_boundary_counterexample :
    get_distribution_analysis [1, 2] =
      Except.error (AnalysisError.insufficientData 3 2) := by
  simp [get_distribution_analysis]

/-- C2 (amended): the frequency analysis raises the insufficient-data error
carrying required=2 and available=n exactly when `n < 2` and succeeds at
`n = 2`; the distribution-fitting stage, however, requires `n ≥ 3`, raising
the insufficient-data error with required=3 for `n < 3` and succeeding (all
families fitted and ranked) exactly from `n = 3` on. -/
theorem insufficient_data_gating (series : List ℚ) :
    (get_frequency_analysis series =
        Except.error (AnalysisError.insufficientData 2 series.length) ↔
      series.length < 2) ∧
    (2 ≤ series.length →
      get_frequency_analysis series = Except.ok (empiricalPoints series)) ∧
    (get_distribution_analysis series =
        Except.error (AnalysisError.insufficientData 3 series.length) ↔
      series.length < 3) ∧
    (3 ≤ series.length →
      get_distribution_analysis series =
        Except.ok (goodnessRanking (distributionFamilies.map (fitFamily series)))) := by
  refine ⟨?_, ?_, ?_, ?_⟩
  · unfold get_frequency_analysis
    by_cases h : series.length < 2 <;> simp [h]
  · intro h
    unfold get_frequency_analysis
    simp [Nat.not_lt.mpr h]
  · unfold get_distribution_analysis
    by_cases h : series.length < 3 <;> simp [h]
  · intro h
    unfold get_distribution_analysis
    simp [Nat.not_lt.mpr h]

/-- Witness for the amended C2, instantiated at a concrete 3-period series. -/
theorem insufficient_data_gating_witness :
    (get_frequency_analysis [1, 2, 3] =
        Except.error (AnalysisError.insufficientData 2 [(1 : ℚ), 2, 3].length) ↔
      [(1 : ℚ), 2, 3].length < 2) ∧
    (2 ≤ [(1 : ℚ), 2, 3].length →
      get_frequency_analysis [1, 2, 3] = Except.ok (empiricalPoints [1, 2, 3])) ∧
    (get_distribution_analysis [1, 2, 3] =
        Except.error (AnalysisError.insufficientData 3 [(1 : ℚ), 2, 3].length) ↔
      [(1 : ℚ), 2, 3].length < 3) ∧
    (3 ≤ [(1 : ℚ), 2, 3].length →
      get_distribution_analysis [1, 2, 3] =
        Except.ok (goodnessRanking (distributionFamilies.map (fitFamily [1, 2, 3])))) :=
  insufficient_data_gating [1, 2, 3]

/-- C5: the quality assessment's grade and uncertainty are a function of the
sample count alone — none for `n < 2`, poor/very_high for `2 ≤ n < 10`,
fair/high for `10 ≤ n < 20`, good/moderate for `20 ≤ n < 30`, excellent/low
for `n ≥ 30`. -/
theorem quality_grade_thresholds (series : List ℚ) :
    (assessQuality series = none ↔ series.length < 2) ∧
    (assessQuality series).map gradeUncert =
      (if series.length < 2 then none
       else if series.length < 10 then some (Grade.poor, Uncertainty.very_high)
       else if series.length < 20 then some (Grade.fair, Uncertainty.high)
       else if series.length < 30 then some (Grade.good, Uncertainty.moderate)
       else some (Grade.excellent, Uncertainty.low)) := by
  unfold assessQuality gradeUncert
  by_cases h2 : series.length < 2 <;> by_cases h10 : series.length < 10 <;>
    by_cases h20 : series.length < 20 <;> by_cases h30 : series.length < 30 <;>
    simp [h2, h10, h20, h30]

/-- Every member of the ranked fit list was a successful fit. -/
theorem mem_rankFits_fitSucceeded (fits : List FitResult) (f : FitResult)
    (hf : f ∈ rankFits fits) : f.fitSucceeded = true := by
  unfold rankFits at hf
  have hmem := (List.perm_insertionSort fitOrder
    (fits.filter (fun g => g.fitSucceeded))).mem_iff.mp hf
  exact (List.mem_filter.mp hmem).2

/-- C6: every ranked entry's AIC equals `2k - 2*logLikelihood`; only
successful fits are ranked; the ranking is sorted ascending by AIC with ties
broken by higher KS p-value; and an entry is marked `isBestFit` exactly when
it heads the ranking. -/
theorem aic_ranking_correct (fits : List FitResult) (r : EvaluatedFit)
    (hr : r ∈ goodnessRanking fits) :
    r.AIC = 2 * (r.fit.k : ℚ) - 2 * r.fit.logLik ∧
    r.fit.fitSucceeded = true ∧
    List.Sorted fitOrder (rankFits fits) ∧
    (r.isBestFit = true ↔ (goodnessRanking fits).head? = some r) := by
  have hsorted : List.Sorted fitOrder (rankFits fits) :=
    List.sorted_insertionSort fitOrder _
  unfold goodnessRanking at hr ⊢
  cases hl : rankFits fits with
  | nil => rw [hl] at hr; simp [markBest] at hr
  | cons x xs =>
      rw [hl] at hr
      have hx : x ∈ rankFits fits := by rw [hl]; exact List.mem_cons_self x xs
      rcases List.mem_cons.mp hr with rfl | hr'
      · refine ⟨by simp [evaluateAIC], mem_rankFits_fitSucceeded fits x hx,
          hl ▸ hsorted, ?_⟩
        simp [markBest]
      · rcases List.mem_map.mp hr' with ⟨f, hfxs, rfl⟩
        have hfl : f ∈ rankFits fits := by
          rw [hl]; exact List.mem_cons_of_mem x hfxs
        refine ⟨by simp [evaluateAIC], mem_rankFits_fitSucceeded fits f hfl,
          hl ▸ hsorted, ?_⟩
        simp [markBest]

/-- Witness for C6, instantiated at a single successful Gumbel fit. -/
theorem aic_ranking_correct_witness :
    (⟨⟨"gumbel", 2, 5, 1/2, true, none⟩, -6, true⟩ : EvaluatedFit) ∈
      goodnessRanking [⟨"gumbel", 2, 5, 1/2, true, none⟩] ∧
    ((⟨⟨"gumbel", 2, 5, 1/2, true, none⟩, -6, true⟩ : EvaluatedFit).AIC =
        2 * ((⟨"gumbel", 2, 5, 1/2, true, none⟩ : FitResult).k : ℚ) -
          2 * (⟨"gumbel", 2, 5, 1/2, true, none⟩ : FitResult).logLik ∧
      (⟨"gumbel", 2, 5, 1/2, true, none⟩ : FitResult).fitSucceeded = true ∧
      List.Sorted fitOrder (rankFits [⟨"gumbel", 2, 5, 1/2, true, none⟩]) ∧
      ((⟨⟨"gumbel", 2, 5, 1/2, true, none⟩, -6, true⟩ : EvaluatedFit).isBestFit = true ↔
        (goodnessRanking [⟨"gumbel", 2, 5, 1/2, true, none⟩]).head? =
          some ⟨⟨"gumbel", 2, 5, 1/2, true, none⟩, -6, true⟩)) := by
  have hr : (⟨⟨"gumbel", 2, 5, 1/2, true, none⟩, -6, true⟩ : EvaluatedFit) ∈
      goodnessRanking [⟨"gumbel", 2, 5, 1/2, true, none⟩] := by
    norm_num [goodnessRanking, rankFits, markBest, evaluateAIC,
      List.insertionSort, List.orderedInsert]
  exact ⟨hr, aic_ranking_correct _ _ hr⟩

/-- C7: an all-identical-value sample with `n ≥ 30` does not abort the
analysis: every family's fit is recorded with `fitSucceeded = false` and the
degenerate-variance reason, while the quality assessment is still produced
with grade excellent, uncertainty low, and a zero-variance warning. -/
theorem degenerate_input_nonfatal (m : ℕ) (v : ℚ) (hm : 30 ≤ m) :
    ∃ res, runAnalysis (List.replicate m v) = Except.ok res ∧
      res.fits.length = distributionFamilies.length ∧
      (∀ f ∈ res.fits, f.fitSucceeded = false ∧
        f.failureReason = some "degenerate zero-variance input") ∧
      res.quality.grade = Grade.excellent ∧
      res.quality.uncertainty = Uncertainty.low ∧
      "zero variance" ∈ res.quality.warnings := by
  have hlen : (List.replicate m v).length = m := List.length_replicate m v
  have hae : allEqual (List.replicate m v) = true := by
    cases m with
    | zero => simp [allEqual]
    | succ k =>
        simp only [List.replicate_succ, allEqual]
        rw [List.all_eq_true]
        intro y hy
        rw [List.eq_of_mem_replicate hy]
        simp
  have hassess : assessQuality (List.replicate m v) =
      some ⟨m, Grade.excellent, Uncertainty.low, ["zero variance"]⟩ := by
    simp only [assessQuality, hlen, hae, if_true]
    rw [if_neg (by omega), if_neg (by omega), if_neg (by omega), if_neg (by omega)]
  refine ⟨⟨⟨m, Grade.excellent, Uncertainty.low, ["zero variance"]⟩,
    distributionFamilies.map (fitFamily (List.replicate m v))⟩, ?_, ?_, ?_, rfl, rfl, ?_⟩
  · unfold runAnalysis
    rw [hassess]
  · simp
  · intro f hf
    rcases List.mem_map.mp hf with ⟨name, _, rfl⟩
    simp [fitFamily, hae]
  · simp

/-- Witness for C7, instantiated at 30 copies of the value 5. -/
theorem degenerate_input_nonfatal_witness :
    ∃ res, runAnalysis (List.replicate 30 (5 : ℚ)) = Except.ok res ∧
      res.fits.length = distributionFamilies.length ∧
      (∀ f ∈ res.fits, f.fitSucceeded = false ∧
        f.failureReason = some "degenerate zero-variance input") ∧
      res.quality.grade = Grade.excellent ∧
      res.quality.uncertainty = Uncertainty.low ∧
      "zero variance" ∈ res.quality.warnings :=
  degenerate_input_nonfatal 30 5 (by norm_num)


/-- The Gumbel cdf inverts the ppf on `(0,1)` for nonzero scale. -/
theorem gumbelCdf_gumbelPpf (mu beta p : ℝ) (hb : beta ≠ 0)
    (h0 : 0 < p) (h1 : p < 1) :
    gumbelCdf mu beta (gumbelPpf mu beta p) = p := by
  have hlp : Real.log p < 0 := Real.log_neg h0 h1
  have hnl : 0 < -Real.log p := by linarith
  unfold gumbelCdf gumbelPpf
  rw [show mu - beta * Real.log (-Real.log p) - mu
        = beta * -Real.log (-Real.log p) by ring,
    mul_div_cancel_left₀ _ hb, neg_neg, Real.exp_log hnl, neg_neg,
    Real.exp_log h0]

/-- C3: for a fitted Gumbel distribution and each return period
`T ∈ {2,10,100}`, the return-period quantile `Q = ppf(1-1/T)` satisfies
`cdf(Q) = 1 - 1/T`, and it coincides with the theoretical frequency curve
evaluated at exceedance probability `p = 1/T`. -/
theorem return_period_roundtrip (mu beta T : ℝ) (hb : beta ≠ 0)
    (hT : T = 2 ∨ T = 10 ∨ T = 100) :
    gumbelCdf mu beta (returnPeriodQuantile mu beta T) = 1 - 1 / T ∧
    returnPeriodQuantile mu beta T = theoreticalCurveQ mu beta (1 / T) := by
  refine ⟨?_, rfl⟩
  unfold returnPeriodQuantile
  apply gumbelCdf_gumbelPpf mu beta _ hb
  · rcases hT with rfl | rfl | rfl <;> norm_num
  · rcases hT with rfl | rfl | rfl <;> norm_num

/-- Witness for C3, instantiated at the Gumbel fit `mu = 50, beta = 10` and
`T = 2`. -/
theorem return_period_roundtrip_witness :
    gumbelCdf 50 10 (returnPeriodQuantile 50 10 2) = 1 - 1 / 2 ∧
    returnPeriodQuantile 50 10 2 = theoreticalCurveQ 50 10 (1 / 2) :=
  return_period_roundtrip 50 10 2 (by norm_num) (Or.inl rfl)

/-- The Gumbel ppf is monotone on `(0,1)` for positive scale. -/
theorem gumbelPpf_mono (mu beta p q : ℝ) (hb : 0 < beta) (h0 : 0 < p)
    (hpq : p ≤ q) (h1 : q < 1) : gumbelPpf mu beta p ≤ gumbelPpf mu beta q := by
  have hq0 : 0 < q := lt_of_lt_of_le h0 hpq
  have hlq : Real.log q < 0 := Real.log_neg hq0 h1
  have hlpq : Real.log p ≤ Real.log q := Real.log_le_log h0 hpq
  have hnq : 0 < -Real.log q := by linarith
  have h2 : -Real.log q ≤ -Real.log p := by linarith
  have h3 : Real.log (-Real.log q) ≤ Real.log (-Real.log p) :=
    Real.log_le_log hnq h2
  have h4 := mul_le_mul_of_nonneg_left h3 (le_of_lt hb)
  unfold gumbelPpf
  linarith

/-- C4: for max-type aggregation and a fitted Gumbel distribution, the
return-period quantile is monotone: `T1 < T2` implies `Q(T1) ≤ Q(T2)`. -/
theorem return_period_quantile_monotone (mu beta T1 T2 : ℝ) (hb : 0 < beta)
    (h1 : 1 < T1) (h12 : T1 < T2) :
    returnPeriodQuantile mu beta T1 ≤ returnPeriodQuantile mu beta T2 := by
  have hT1 : 0 < T1 := by linarith
  have hT2 : 0 < T2 := by linarith
  unfold returnPeriodQuantile
  apply gumbelPpf_mono mu beta _ _ hb
  · have hlt : 1 / T1 < 1 := by rw [div_lt_one hT1]; exact h1
    linarith
  · have hle : 1 / T2 ≤ 1 / T1 := one_div_le_one_div_of_le hT1 (le_of_lt h12)
    linarith
  · have hpos : 0 < 1 / T2 := by positivity
    linarith

/-- Witness for C4, instantiated at `mu = 50, beta = 10, T1 = 2, T2 = 10`. -/
theorem return_period_quantile_monotone_witness :
    returnPeriodQuantile 50 10 2 ≤ returnPeriodQuantile 50 10 10 :=
  return_period_quantile_monotone 50 10 2 10 (by norm_num) (by norm_num)
    (by norm_num)

/-- C9: `getQualityScore` returns score 0 with the no-data label whenever
either argument is falsy (absent, or the number 0); otherwise the score is
the sum of an AIC component in `{10,20,30,40}` non-increasing in AIC and a
p-value component in `{10,20,40,60}` non-decreasing in p-value, hence lies
between 20 and 100 inclusive, and the label is the top one exactly when the
score is at least 80. -/
theorem quality_score_spec (a a2 p p2 : ℚ) (ha : a ≠ 0) (hp : p ≠ 0)
    (haa : a ≤ a2) (hpp : p ≤ p2) :
    getQualityScore none (some p) = ⟨0, "Không đủ dữ liệu", "secondary"⟩ ∧
    getQualityScore (some a) none = ⟨0, "Không đủ dữ liệu", "secondary"⟩ ∧
    getQualityScore (some 0) (some p) = ⟨0, "Không đủ dữ liệu", "secondary"⟩ ∧
    getQualityScore (some a) (some 0) = ⟨0, "Không đủ dữ liệu", "secondary"⟩ ∧
    (getQualityScore (some a) (some p)).score
      = aicComponent a + pValueComponent p ∧
    aicComponent a2 ≤ aicComponent a ∧
    pValueComponent p ≤ pValueComponent p2 ∧
    aicComponent a ∈ ([10, 20, 30, 40] : List ℚ) ∧
    pValueComponent p ∈ ([10, 20, 40, 60] : List ℚ) ∧
    20 ≤ (getQualityScore (some a) (some p)).score ∧
    (getQualityScore (some a) (some p)).score ≤ 100 ∧
    ((getQualityScore (some a) (some p)).label = "Tuyệt vời" ↔
      80 ≤ (getQualityScore (some a) (some p)).score) := by
  have hfa : falsy (some a) = false := by
    simp [falsy, ha]
  have hfp : falsy (some p) = false := by
    simp [falsy, hp]
  have hacb : 10 ≤ aicComponent a ∧ aicComponent a ≤ 40 := by
    unfold aicComponent; split_ifs <;> norm_num
  have hpcb : 10 ≤ pValueComponent p ∧ pValueComponent p ≤ 60 := by
    unfold pValueComponent; split_ifs <;> norm_num
  have hscore : (getQualityScore (some a) (some p)).score
      = aicComponent a + pValueComponent p := by
    simp only [getQualityScore, hfa, hfp, Bool.or_self, Option.getD_some,
      Bool.false_eq_true, if_false]
    split_ifs <;> rfl
  refine ⟨by simp [getQualityScore, falsy], by simp [getQualityScore, falsy],
    by simp [getQualityScore, falsy], by simp [getQualityScore, falsy],
    hscore, ?_, ?_, ?_, ?_, ?_, ?_, ?_⟩
  · unfold aicComponent
    split_ifs <;> linarith
  · unfold pValueComponent
    split_ifs <;> linarith
  · unfold aicComponent; split_ifs <;> simp
  · unfold pValueComponent; split_ifs <;> simp
  · rw [hscore]; linarith [hacb.1, hpcb.1]
  · rw [hscore]; linarith [hacb.2, hpcb.2]
  · simp only [getQualityScore, hfa, hfp, Bool.or_self, Option.getD_some,
      Bool.false_eq_true, if_false]
    split_ifs with h1 h2 h3 <;> simp_all

/-- Witness for C9, instantiated at `AIC = 5 ≤ 25`, `p = 0.06 ≤ 0.1`. -/
theorem quality_score_spec_witness :
    getQualityScore none (some (6/100)) = ⟨0, "Không đủ dữ liệu", "secondary"⟩ ∧
    getQualityScore (some 5) none = ⟨0, "Không đủ dữ liệu", "secondary"⟩ ∧
    getQualityScore (some 0) (some (6/100)) = ⟨0, "Không đủ dữ liệu", "secondary"⟩ ∧
    getQualityScore (some 5) (some 0) = ⟨0, "Không đủ dữ liệu", "secondary"⟩ ∧
    (getQualityScore (some 5) (some (6/100))).score
      = aicComponent 5 + pValueComponent (6/100) ∧
    aicComponent 25 ≤ aicComponent 5 ∧
    pValueComponent (6/100) ≤ pValueComponent (1/10) ∧
    aicComponent 5 ∈ ([10, 20, 30, 40] : List ℚ) ∧
    pValueComponent (6/100) ∈ ([10, 20, 40, 60] : List ℚ) ∧
    20 ≤ (getQualityScore (some 5) (some (6/100))).score ∧
    (getQualityScore (some 5) (some (6/100))).score ≤ 100 ∧
    ((getQualityScore (some 5) (some (6/100))).label = "Tuyệt vời" ↔
      80 ≤ (getQualityScore (some 5) (some (6/100))).score) :=
  quality_score_spec 5 25 (6/100) (1/10) (by norm_num) (by norm_num)
    (by norm_num) (by norm_num)

/-- C10: `allStatsAreSame` is false for a missing or empty statistics list
and true exactly when every row's min, max and mean are equal to those of the
first row; in particular a single-row list yields true, so a one-year result
always renders the data-unchanged warning instead of the statistics table. -/
theorem all_stats_same_spec (first row : StatRow) (rest : List StatRow) :
    allStatsAreSame none = false ∧
    allStatsAreSame (some []) = false ∧
    (allStatsAreSame (some (first :: rest)) = true ↔
      ∀ s ∈ first :: rest,
        s.min = first.min ∧ s.max = first.max ∧ s.mean = first.mean) ∧
    allStatsAreSame (some [row]) = true ∧
    annualStatisticsView (some [row]) = AnnualView.warningDataUnchanged := by
  have hsingle : allStatsAreSame (some [row]) = true := by
    simp [allStatsAreSame]
  refine ⟨rfl, rfl, ?_, hsingle, ?_⟩
  · simp [allStatsAreSame, List.all_eq_true, and_assoc]
  · simp [annualStatisticsView, hsingle]

/-- Witness for C10, instantiated at concrete statistics rows. -/
theorem all_stats_same_spec_witness :
    allStatsAreSame none = false ∧
    allStatsAreSame (some []) = false ∧
    (allStatsAreSame (some (⟨2020, 1, 2, 3/2⟩ :: [⟨2021, 1, 2, 3/2⟩])) = true ↔
      ∀ s ∈ (⟨2020, 1, 2, 3/2⟩ : StatRow) :: [⟨2021, 1, 2, 3/2⟩],
        s.min = (⟨2020, 1, 2, 3/2⟩ : StatRow).min ∧
          s.max = (⟨2020, 1, 2, 3/2⟩ : StatRow).max ∧
          s.mean = (⟨2020, 1, 2, 3/2⟩ : StatRow).mean) ∧
    allStatsAreSame (some [⟨2019, 0, 0, 0⟩]) = true ∧
    annualStatisticsView (some [⟨2019, 0, 0, 0⟩])
      = AnnualView.warningDataUnchanged :=
  all_stats_same_spec ⟨2020, 1, 2, 3/2⟩ ⟨2019, 0, 0, 0⟩ [⟨2021, 1, 2, 3/2⟩]
